import Mathlib

/-!
Verification of the voice handler layer (`src/mods/apiserver/src/voice/handlers/Stream.ts`)
and the identity access check (`src/mods/common/src/identity/hasAccess.ts`) of the
fonoster repository, as a shallow embedding in Lean.

The handlers are event-driven JavaScript; we embed one handler invocation as a pure
function from its inputs (the request, the list of audio chunks the transcriptions
stream will emit, and the failure behaviour of the external collaborators) to the
ordered list of observable effects it performs, plus the error it raises, if any.
Values that JavaScript treats as possibly-absent (`undefined`) are `Option`s, and
the `x || default` idiom is embedded with JavaScript falsiness (absent or empty
string picks the default).
-/

/-- JavaScript `v || dflt` on a possibly-undefined string: `undefined` and the
empty string are falsy, so both select the default. -/
def jsOr (v : Option String) (dflt : String) : String :=
  match v with
  | none => dflt
  | some s => if s = "" then dflt else s

/-- JavaScript `String.prototype.includes`: `strIncludes s pat` is true when `pat`
occurs as a contiguous substring of `s`. -/
def strIncludes (s pat : String) : Bool :=
  (List.range (s.length + 1)).any
    (fun i => (s.toList.drop i).take pat.length == pat.toList)

/-- Modelled from the spec: the `StreamMessageType` enum of `@fonoster/common`
(the package itself is outside `src/`); the stream handler tags outbound audio
with `AUDIO_OUT`. -/
inductive StreamMessageType where
  | AUDIO_OUT
  | AUDIO_IN
deriving DecidableEq, Repr

/-- Modelled from the spec: the string values of the `StreamDirection` enum of
`@fonoster/common` (`enum[IN,OUT,BOTH]`). -/
def streamDirectionValues : List String := ["IN", "OUT", "BOTH"]

/-- Modelled from the spec: the string values of the `StreamAudioFormat` enum of
`@fonoster/common` (`enum[WAV,PCM,...]`). -/
def streamAudioFormatValues : List String := ["WAV", "PCM"]

/-- The runtime shape of a start-stream request as the handler receives it:
every field may be absent on the wire, and `direction`/`format` are raw strings
until the zod schema has checked them. -/
structure StartStreamRequest where
  sessionRef : Option String
  direction : Option String
  format : Option String
deriving DecidableEq, Repr

/-- A `VerbRequest` carries the session reference. -/
structure VerbRequest where
  sessionRef : String
deriving DecidableEq, Repr

/-- The tagged union of outbound response payloads sent through the voice
client's response channel. -/
inductive ResponsePayload where
  | startStreamResponse (sessionRef : Option String) (streamRef : String)
  | streamPayload (sessionRef : Option String) (type : StreamMessageType)
      (data : String) (streamRef : String) (format : String)
  | hangupResponse (sessionRef : String)
deriving DecidableEq, Repr

/-- Errors a handler body can raise. `validationError` is a zod parse failure;
`upstreamError` is a failure of an external collaborator (telephony adapter or
transport). -/
inductive VoiceErr where
  | validationError (message : String)
  | upstreamError (message : String)
deriving DecidableEq, Repr

/-- Observable effects of one `streamHandler` invocation, in execution order. -/
inductive Event where
  | subscribe
  | send (payload : ResponsePayload)
deriving DecidableEq, Repr

/-- Check performed by the zod schema `streamRequestSchema` from the source: an object with only
`direction` and `format`, both optional native enums. `sessionRef` is not part
of the schema, and fields that are absent pass. -/
def optionalEnumOk (values : List String) : Option String → Bool
  | none => true
  | some v => values.contains v

/-- Success condition of `streamRequestSchema.parse(request)`: the present
`direction`/`format` values belong to their enums. -/
def streamRequestSchemaOk (req : StartStreamRequest) : Bool :=
  optionalEnumOk streamDirectionValues req.direction &&
  optionalEnumOk streamAudioFormatValues req.format

/-- Embedding of `direction || StreamDirection.BOTH` from the source. -/
def effectiveDirection (req : StartStreamRequest) : String :=
  jsOr req.direction "BOTH"

/-- Embedding of `format || StreamAudioFormat.WAV` from the source. -/
def effectiveFormat (req : StartStreamRequest) : String :=
  jsOr req.format "WAV"

/-- The guard of the subscription branch in the source:
`effectiveDirection.includes(StreamDirection.OUT) || effectiveDirection === StreamDirection.BOTH`. -/
def subscribesOut (req : StartStreamRequest) : Bool :=
  strIncludes (effectiveDirection req) "OUT" || effectiveDirection req == "BOTH"

/-- The events of a successfully validated `streamHandler` run, in order: the
handler registers the data listener on the transcriptions stream (when the
guard holds), then sends the `startStreamResponse` acknowledgment — the handler
body is synchronous, so no data event can fire before the acknowledgment — and
each chunk the stream later emits is forwarded as one `streamPayload`. Both
`streamRef` fields are the source's literal `"fixme"`. -/
def streamEvents (req : StartStreamRequest) (chunks : List String) : List Event :=
  (if subscribesOut req then [Event.subscribe] else []) ++
  [Event.send (ResponsePayload.startStreamResponse req.sessionRef "fixme")] ++
  (if subscribesOut req then
    chunks.map (fun d =>
      Event.send (ResponsePayload.streamPayload req.sessionRef
        StreamMessageType.AUDIO_OUT d "fixme" (effectiveFormat req)))
  else [])

/-- The body of `streamHandler` before the error-handling wrapper:
`streamRequestSchema.parse(request)` throws a validation error, otherwise the
run produces its events. -/
def streamHandlerBody (req : StartStreamRequest) (chunks : List String) :
    Except VoiceErr (List Event) :=
  if streamRequestSchemaOk req then Except.ok (streamEvents req chunks)
  else Except.error (VoiceErr.validationError "invalid stream request")

/-- What a wrapped handler invocation can produce: either its events, or a
structured error response delivered to the caller. There is no raw-fault
variant: the wrapper converts every thrown error. -/
inductive HandlerResult where
  | ok (events : List Event)
  | errorResponse (e : VoiceErr)
deriving DecidableEq, Repr

/-- Modelled from the spec: `withErrorHandling` (defined in
`./utils/withErrorHandling`, outside `src/`) is the uniform error-handling
wrapper — errors thrown by the handler body are caught at the dispatch boundary
and converted to a structured error response, never propagated as a raw fault. -/
def withErrorHandling (body : Except VoiceErr (List Event)) : HandlerResult :=
  match body with
  | Except.ok evs => HandlerResult.ok evs
  | Except.error e => HandlerResult.errorResponse e

/-- Embedding of `streamHandler` from the source: the body wrapped in `withErrorHandling`. -/
def streamHandler (req : StartStreamRequest) (chunks : List String) : HandlerResult :=
  withErrorHandling (streamHandlerBody req chunks)

/-- The event trace of a `streamHandler` invocation (empty when validation
rejected the request, since the body stops at `parse`). -/
def streamTrace (req : StartStreamRequest) (chunks : List String) : List Event :=
  match streamHandler req chunks with
  | HandlerResult.ok evs => evs
  | HandlerResult.errorResponse _ => []

/-- Recognizes a `startStreamResponse` send. -/
def isAck : Event → Bool
  | Event.send (ResponsePayload.startStreamResponse _ _) => true
  | _ => false

/-- Recognizes a `streamPayload` send. -/
def isPayload : Event → Bool
  | Event.send (ResponsePayload.streamPayload _ _ _ _ _) => true
  | _ => false

/-- The `startStreamResponse` payloads of a trace, in order. -/
def acksOf (t : List Event) : List ResponsePayload :=
  t.filterMap (fun e =>
    match e with
    | Event.send (ResponsePayload.startStreamResponse s r) =>
        some (ResponsePayload.startStreamResponse s r)
    | _ => none)

/-- The `streamPayload` payloads of a trace, in order. -/
def payloadsOf (t : List Event) : List ResponsePayload :=
  t.filterMap (fun e =>
    match e with
    | Event.send (ResponsePayload.streamPayload s ty d r f) =>
        some (ResponsePayload.streamPayload s ty d r f)
    | _ => none)

/-- Observable effects of one `hangupHandler` invocation, in execution order. -/
inductive HEvent where
  | ariHangup (channelId : String)
  | sendResponse (payload : ResponsePayload)
  | close
deriving DecidableEq, Repr

/-- Which of the two external calls performed by `hangupHandler` fail on this
invocation: the telephony adapter's `ari.channels.hangup` and the transport's
`sendResponse`. -/
structure HangupFailures where
  hangupFails : Bool
  sendFails : Bool
deriving DecidableEq, Repr

/-- Embedding of `hangupHandler` from the source. Its body is not wrapped in
`withErrorHandling` and has no try/finally: each external call is attempted in
turn, and a failing call stops the body, so its error escapes and the remaining
calls — including `voiceClient.close()` — are skipped. When `voiceClient` is
absent (`if (voiceClient)` is false) the body does nothing. Returns the effects
that happened and the escaped error, if any. -/
def hangupHandler (w : HangupFailures) (hasVoiceClient : Bool) (req : VerbRequest) :
    List HEvent × Option VoiceErr :=
  if hasVoiceClient then
    if w.hangupFails then
      ([], some (VoiceErr.upstreamError "hangup failed"))
    else if w.sendFails then
      ([HEvent.ariHangup req.sessionRef], some (VoiceErr.upstreamError "send failed"))
    else
      ([HEvent.ariHangup req.sessionRef,
        HEvent.sendResponse (ResponsePayload.hangupResponse req.sessionRef),
        HEvent.close], none)
  else ([], none)

/-- An entry of the access list checked by `hasAccess`: the role granted to the
caller. -/
structure Access where
  role : String
deriving DecidableEq, Repr

/-- An entry of the roles table: a role name and the list of gRPC methods the
role may call. -/
structure Role where
  name : String
  access : List String
deriving DecidableEq, Repr

/-- Embedding of `hasAccess` from `src/mods/common/src/identity/hasAccess.ts`, with the
(global) `roles` table it reads as an explicit argument:
`access.map(a => a.role).some(r => roles.find(role => role.name === r && role.access.includes(method)))`
— `find` yields the first matching role object (truthy) or `undefined` (falsy). -/
def hasAccess (roles : List Role) (access : List Access) (method : String) : Bool :=
  let roleList := access.map (fun a => a.role)
  roleList.any (fun r =>
    (roles.find? (fun role => role.name == r && role.access.contains method)).isSome)

/-- The acknowledgment extractor ignores a list of forwarded audio payloads. -/
theorem acksOf_payload_map (cs : List String) (s : Option String)
    (ty : StreamMessageType) (r fo : String) :
    acksOf (cs.map (fun d => Event.send (ResponsePayload.streamPayload s ty d r fo))) = [] := by
  induction cs with
  | nil => rfl
  | cons c cs ih => exact ih

/-- The payload extractor recovers a list of forwarded audio payloads verbatim. -/
theorem payloadsOf_payload_map (cs : List String) (s : Option String)
    (ty : StreamMessageType) (r fo : String) :
    payloadsOf (cs.map (fun d => Event.send (ResponsePayload.streamPayload s ty d r fo))) =
      cs.map (fun d => ResponsePayload.streamPayload s ty d r fo) := by
  induction cs with
  | nil => rfl
  | cons c cs ih => simpa [payloadsOf] using ih

/-- On a validated request, the trace is the handler's event list. -/
theorem streamTrace_of_valid (req : StartStreamRequest) (chunks : List String)
    (h : streamRequestSchemaOk req = true) :
    streamTrace req chunks = streamEvents req chunks := by
  simp [streamTrace, streamHandler, streamHandlerBody, withErrorHandling, h]

/-- C1. The claim says every `startStreamResponse` carries a process-unique,
generated `streamRef`, never the literal placeholder. The code instead hardcodes
the placeholder `"fixme"` (its own FIXME comment acknowledges this): two
distinct start requests both receive `streamRef = "fixme"`, and the forwarded
`streamPayload` carries the same placeholder. -/
theorem streamRef_placeholder_bug :
    acksOf (streamTrace ⟨some "S1", none, none⟩ []) =
      [ResponsePayload.startStreamResponse (some "S1") "fixme"] ∧
    acksOf (streamTrace ⟨some "S2", none, none⟩ []) =
      [ResponsePayload.startStreamResponse (some "S2") "fixme"] ∧
    payloadsOf (streamTrace ⟨some "S1", none, none⟩ ["a"]) =
      [ResponsePayload.streamPayload (some "S1") StreamMessageType.AUDIO_OUT
        "a" "fixme" "WAV"] := by
  refine ⟨rfl, rfl, rfl⟩

/-- C2. For every start request that passes schema validation, the trace
contains exactly one `startStreamResponse` acknowledgment; every subscription
event precedes it and every `streamPayload` follows it. -/
theorem startStream_ack_once_ordered (req : StartStreamRequest) (chunks : List String)
    (h : streamRequestSchemaOk req = true) :
    ∃ pre post,
      streamTrace req chunks =
        pre ++ Event.send (ResponsePayload.startStreamResponse req.sessionRef "fixme") :: post ∧
      (∀ e ∈ pre, isAck e = false ∧ isPayload e = false) ∧
      (∀ e ∈ post, isAck e = false ∧ e ≠ Event.subscribe) := by
  rw [streamTrace_of_valid req chunks h, streamEvents]
  cases hs : subscribesOut req with
  | false =>
    refine ⟨[], [], by simp, by simp, by simp⟩
  | true =>
    refine ⟨[Event.subscribe],
      chunks.map (fun d =>
        Event.send (ResponsePayload.streamPayload req.sessionRef
          StreamMessageType.AUDIO_OUT d "fixme" (effectiveFormat req))), by simp, ?_, ?_⟩
    · intro e he
      simp only [List.mem_singleton] at he
      subst he
      exact ⟨rfl, rfl⟩
    · intro e he
      simp only [List.mem_map] at he
      obtain ⟨d, _, rfl⟩ := he
      exact ⟨rfl, by simp⟩

/-- Closed instance of `startStream_ack_once_ordered` at `{sessionRef: "S1"}`
with one audio chunk. -/
theorem startStream_ack_once_ordered_witness :
    streamRequestSchemaOk ⟨some "S1", none, none⟩ = true ∧
    (∃ pre post,
      streamTrace ⟨some "S1", none, none⟩ ["a"] =
        pre ++ Event.send (ResponsePayload.startStreamResponse (some "S1") "fixme") :: post ∧
      (∀ e ∈ pre, isAck e = false ∧ isPayload e = false) ∧
      (∀ e ∈ post, isAck e = false ∧ e ≠ Event.subscribe)) :=
  ⟨by decide, startStream_ack_once_ordered ⟨some "S1", none, none⟩ ["a"] (by decide)⟩

/-- C3. For every validated request whose effective direction is OUT or BOTH,
the `streamPayload` messages of the trace are exactly one per chunk, in
production order, each carrying the request's `sessionRef`, type `AUDIO_OUT`
and the effective format. -/
theorem streamPayloads_per_chunk_in_order (req : StartStreamRequest) (chunks : List String)
    (h : streamRequestSchemaOk req = true)
    (hdir : effectiveDirection req = "OUT" ∨ effectiveDirection req = "BOTH") :
    payloadsOf (streamTrace req chunks) =
      chunks.map (fun d =>
        ResponsePayload.streamPayload req.sessionRef StreamMessageType.AUDIO_OUT
          d "fixme" (effectiveFormat req)) := by
  have hs : subscribesOut req = true := by
    rcases hdir with hd | hd <;> simp only [subscribesOut, hd] <;> decide
  rw [streamTrace_of_valid req chunks h, streamEvents, if_pos hs, if_pos hs]
  simp only [List.cons_append, List.nil_append]
  exact payloadsOf_payload_map chunks req.sessionRef StreamMessageType.AUDIO_OUT
    "fixme" (effectiveFormat req)

/-- Closed instance of `streamPayloads_per_chunk_in_order` at
`{sessionRef: "S1", direction: "OUT"}` with two chunks. -/
theorem streamPayloads_per_chunk_in_order_witness :
    streamRequestSchemaOk ⟨some "S1", some "OUT", none⟩ = true ∧
    (effectiveDirection ⟨some "S1", some "OUT", none⟩ = "OUT" ∨
      effectiveDirection ⟨some "S1", some "OUT", none⟩ = "BOTH") ∧
    payloadsOf (streamTrace ⟨some "S1", some "OUT", none⟩ ["a", "b"]) =
      ["a", "b"].map (fun d =>
        ResponsePayload.streamPayload (some "S1") StreamMessageType.AUDIO_OUT
          d "fixme" "WAV") :=
  ⟨by decide, Or.inl (by decide),
    streamPayloads_per_chunk_in_order ⟨some "S1", some "OUT", none⟩ ["a", "b"]
      (by decide) (Or.inl (by decide))⟩

/-- C4. The claim says `voiceClient.close()` is reached even when the telephony
adapter's hangup call or the response send fails. The body has no try/finally,
so a failing call lets its error escape before `close` runs: with a failing
hangup the trace is empty and the error escapes, and with a failing send the
trace never contains `close`. The code's intent (unconditional cleanup, per the
spec) is violated. -/
theorem hangup_failure_skips_close :
    hangupHandler ⟨true, false⟩ true ⟨"S2"⟩ =
      ([], some (VoiceErr.upstreamError "hangup failed")) ∧
    (hangupHandler ⟨false, true⟩ true ⟨"S2"⟩).1.contains HEvent.close = false ∧
    (hangupHandler ⟨false, true⟩ true ⟨"S2"⟩).2.isSome = true := by
  refine ⟨rfl, rfl, rfl⟩

/-- C5. For a terminated or unknown session (`voiceClient` absent, so the
`if (voiceClient)` guard is false), `hangupHandler` raises no fault and
performs no action: no adapter hangup, no `hangupResponse`, no close. -/
theorem hangupHandler_unknown_session_noop (w : HangupFailures) (ref : String) :
    hangupHandler w false ⟨ref⟩ = ([], none) := by
  simp [hangupHandler]

/-- C6. On an active session with no collaborator failure, `hangupHandler`
performs exactly: adapter hangup with `channelId` equal to the request's
`sessionRef`, then a `hangupResponse` carrying that `sessionRef`, then the
transport close — in that order and nothing else. -/
theorem hangupHandler_active_sequence (ref : String) :
    hangupHandler ⟨false, false⟩ true ⟨ref⟩ =
      ([HEvent.ariHangup ref,
        HEvent.sendResponse (ResponsePayload.hangupResponse ref),
        HEvent.close], none) := by
  simp [hangupHandler]

/-- C7. Whenever schema validation fails, the wrapped `streamHandler` produces
a structured error response; since `HandlerResult` has no raw-fault variant and
`withErrorHandling` is total, no validation error escapes the dispatch
boundary. -/
theorem validation_error_caught (req : StartStreamRequest) (chunks : List String)
    (h : streamRequestSchemaOk req = false) :
    streamHandler req chunks =
      HandlerResult.errorResponse (VoiceErr.validationError "invalid stream request") := by
  simp [streamHandler, streamHandlerBody, withErrorHandling, h]

/-- Closed instance of `validation_error_caught` at a request whose direction
is outside the enum. -/
theorem validation_error_caught_witness :
    streamRequestSchemaOk ⟨some "S1", some "SIDEWAYS", none⟩ = false ∧
    streamHandler ⟨some "S1", some "SIDEWAYS", none⟩ [] =
      HandlerResult.errorResponse (VoiceErr.validationError "invalid stream request") :=
  ⟨by decide, validation_error_caught ⟨some "S1", some "SIDEWAYS", none⟩ [] (by decide)⟩

/-- C8, counterexample. The claim says a request missing `sessionRef` fails
schema validation. It does not: `streamRequestSchema` checks only `direction`
and `format`, so the all-absent request passes validation and the handler
proceeds to acknowledge with the absent `sessionRef`. -/
theorem missing_sessionRef_passes_validation :
    streamRequestSchemaOk ⟨none, none, none⟩ = true ∧
    streamHandler ⟨none, none, none⟩ [] =
      HandlerResult.ok [Event.subscribe,
        Event.send (ResponsePayload.startStreamResponse none "fixme")] := by
  refine ⟨rfl, rfl⟩

/-- C8, amended. Schema validation ignores `sessionRef`: any request without it
whose `direction`/`format` pass the enum check is accepted, and the handler
emits its single `startStreamResponse` with the absent `sessionRef`. -/
theorem schema_ignores_sessionRef (d f : Option String) (chunks : List String)
    (h : streamRequestSchemaOk ⟨none, d, f⟩ = true) :
    acksOf (streamTrace ⟨none, d, f⟩ chunks) =
      [ResponsePayload.startStreamResponse none "fixme"] := by
  rw [streamTrace_of_valid ⟨none, d, f⟩ chunks h, streamEvents]
  cases hs : subscribesOut ⟨none, d, f⟩ with
  | false =>
    rw [if_neg (by decide), if_neg (by decide)]
    rfl
  | true =>
    rw [if_pos rfl, if_pos rfl]
    simp only [List.cons_append, List.nil_append]
    exact congrArg (fun t => ResponsePayload.startStreamResponse none "fixme" :: t)
      (acksOf_payload_map chunks none StreamMessageType.AUDIO_OUT "fixme"
        (effectiveFormat ⟨none, d, f⟩))

/-- Closed instance of `schema_ignores_sessionRef` at the all-absent request. -/
theorem schema_ignores_sessionRef_witness :
    streamRequestSchemaOk ⟨none, none, none⟩ = true ∧
    acksOf (streamTrace ⟨none, none, none⟩ []) =
      [ResponsePayload.startStreamResponse none "fixme"] :=
  ⟨by decide, schema_ignores_sessionRef none none [] (by decide)⟩

/-- C9. The claim says a request with direction IN yields an explicit
NotImplemented outcome. Instead the handler silently skips the subscription
branch and still acknowledges with a normal `startStreamResponse`: even with
audio available, the result is a plain `ok` with the lone acknowledgment — no
error of any kind, no subscription, no payloads. The code's own FIXME marks
the IN path as unimplemented. -/
theorem direction_in_silent_ack :
    streamHandler ⟨some "S3", some "IN", none⟩ ["x"] =
      HandlerResult.ok [Event.send (ResponsePayload.startStreamResponse (some "S3") "fixme")] := by
  rfl

/-- C10. Characterization of `hasAccess`: it returns true exactly when some
entry of the access list names a role that appears in the roles table with the
method in its access list. Consequently the empty access list grants nothing,
and an entry whose role name is absent from the roles table never grants
access. -/
theorem hasAccess_iff (roles : List Role) (access : List Access) (method : String) :
    (hasAccess roles access method = true ↔
      ∃ a ∈ access, ∃ ρ ∈ roles, ρ.name = a.role ∧ method ∈ ρ.access) ∧
    hasAccess roles [] method = false := by
  constructor
  · simp only [hasAccess, List.any_eq_true]
    constructor
    · rintro ⟨r, hr, hp⟩
      rw [List.mem_map] at hr
      obtain ⟨a, ha, rfl⟩ := hr
      rw [List.find?_isSome] at hp
      obtain ⟨ρ, hρ, hcond⟩ := hp
      rw [Bool.and_eq_true, beq_iff_eq] at hcond
      refine ⟨a, ha, ρ, hρ, hcond.1, ?_⟩
      simpa using hcond.2
    · rintro ⟨a, ha, ρ, hρ, hname, hmem⟩
      refine ⟨a.role, List.mem_map.mpr ⟨a, ha, rfl⟩, ?_⟩
      rw [List.find?_isSome]
      refine ⟨ρ, hρ, ?_⟩
      rw [Bool.and_eq_true, beq_iff_eq]
      exact ⟨hname, by simpa using hmem⟩
  · simp [hasAccess]
